import Mathlib

/-!
Verification development for the AIR-1 dashboard add-on core.

The definitions below are a shallow embedding of the repository's
entity-normalization pipeline (`server/config.js`, the Home Assistant
client's `transformEntity` / `fetchSensors` offset attachment) and of the
reading store (`db.ts` `AirQualityDatabase` plus the `/import`, `/export`
route handlers).  JavaScript numbers are modelled as exact rationals `ℚ`
(overflow and IEEE artefacts are out of scope); JavaScript strings as
`String`; SQL statements by their SQLite semantics on a list of rows.

Rational arithmetic is written with kernel-computable wrappers
(`ratAdd`, `ratMul`, ...) built on `mkRat`; the bridge lemmas
`ratAdd_eq` etc. identify them with the ordinary field operations, so
theorem statements use ordinary `ℚ` arithmetic while concrete witnesses
evaluate by `decide`.
-/

/-! ### Kernel-computable rational arithmetic -/

/-- Addition on `ℚ` via `mkRat` (kernel-reducible, unlike `Rat.add`). -/
def ratAdd (a b : ℚ) : ℚ := mkRat (a.num * b.den + b.num * a.den) (a.den * b.den)

/-- Negation on `ℚ` via `mkRat`. -/
def ratNeg (a : ℚ) : ℚ := mkRat (-a.num) a.den

/-- Subtraction on `ℚ` via `mkRat`. -/
def ratSub (a b : ℚ) : ℚ := ratAdd a (ratNeg b)

/-- Multiplication on `ℚ` via `mkRat`. -/
def ratMul (a b : ℚ) : ℚ := mkRat (a.num * b.num) (a.den * b.den)

/-- Division of a rational by a natural number via `mkRat`. -/
def ratDivNat (a : ℚ) (n : Nat) : ℚ := mkRat a.num (a.den * n)

/-- Integer literal as a rational, kernel-reducible. -/
def intQ (n : Int) : ℚ := mkRat n 1

/-!
### JavaScript numeric primitives

`Math.round` on finite doubles rounds half-integers toward `+∞`; on exact
rationals that is `⌊x + 1/2⌋`.
-/

/-- `Math.round`: round to nearest, halves toward `+∞`. -/
def jsRound (x : ℚ) : Int := ⌊ratAdd x (mkRat 1 2)⌋

/-- Round to 2 decimal places as the source does:
`Math.round(x * 100) / 100`. -/
def round2 (x : ℚ) : ℚ := mkRat (jsRound (ratMul x (intQ 100))) 100

/-! ### Character-list string helpers

All string manipulation is done on `List Char` with structural recursion,
so that concrete witnesses reduce inside the kernel.
-/

/-- ASCII lower-casing of a string, as a character list
(models JavaScript `toLowerCase` on the ASCII identifiers and units the
system uses). -/
def lowerChars (s : String) : List Char := s.toList.map Char.toLower

/-- Contiguous-substring test on character lists
(models JavaScript `String.prototype.includes`). -/
def charsContain (needle : List Char) : List Char → Bool
  | [] => needle.isEmpty
  | c :: rest => needle.isPrefixOf (c :: rest) || charsContain needle rest

/-- Split a character list at every occurrence of the separator character
(models JavaScript `String.prototype.split` with a single-character
separator, including its behaviour on empty fragments). -/
def splitOnChar (sep : Char) : List Char → List (List Char)
  | [] => [[]]
  | c :: rest =>
    if c = sep then [] :: splitOnChar sep rest
    else
      match splitOnChar sep rest with
      | [] => [[c]]
      | grp :: grps => (c :: grp) :: grps

/-- Remove a leading literal fragment if present
(models `s.replace(/^lit/, '')` for a literal pattern). -/
def stripStart (lit s : String) : String :=
  if lit.toList.isPrefixOf s.toList then String.mk (s.toList.drop lit.toList.length) else s

/-- Remove a leading literal fragment, compared case-insensitively
(models `s.replace(new RegExp('^lit', 'i'), '')`). -/
def stripStartCI (lit s : String) : String :=
  if (lowerChars lit).isPrefixOf (lowerChars s) then String.mk (s.toList.drop lit.toList.length)
  else s

/-- Remove a trailing literal fragment if present
(models `s.replace(/lit$/, '')` for a literal pattern). -/
def stripEnd (lit s : String) : String :=
  if lit.toList.isSuffixOf s.toList then
    String.mk (s.toList.take (s.toList.length - lit.toList.length))
  else s

/-! ### `Number.parseFloat` -/

/-- Numeric value of a list of decimal digit characters. -/
def digitsVal (ds : List Char) : Nat :=
  ds.foldl (fun n c => 10 * n + (c.toNat - 48)) 0

/-- Model of JavaScript `Number.parseFloat` on exact rationals: skip
leading whitespace, then read the longest prefix of the shape
`[+-]? digits? ('.' digits?)? ([eE] [+-]? digits)?` containing at least
one digit, ignoring any trailing characters.  `none` models `NaN`
(non-finite results such as `"Infinity"` are outside the exact-rational
model and also map to `none`). -/
def jsParseFloat (s : String) : Option ℚ :=
  let cs := s.toList.dropWhile Char.isWhitespace
  let (sign, cs1) : ℚ × List Char :=
    match cs with
    | '-' :: rest => (intQ (-1), rest)
    | '+' :: rest => (intQ 1, rest)
    | _ => (intQ 1, cs)
  let intDigits := cs1.takeWhile Char.isDigit
  let afterInt := cs1.dropWhile Char.isDigit
  let (fracDigits, afterFrac) : List Char × List Char :=
    match afterInt with
    | '.' :: rest => (rest.takeWhile Char.isDigit, rest.dropWhile Char.isDigit)
    | _ => ([], afterInt)
  if intDigits.isEmpty && fracDigits.isEmpty then none
  else
    let mantissa : ℚ :=
      mkRat (digitsVal intDigits * 10 ^ fracDigits.length + digitsVal fracDigits)
        (10 ^ fracDigits.length)
    let expVal : Int :=
      match afterFrac with
      | e :: rest =>
        if e = 'e' ∨ e = 'E' then
          let (esign, rest1) : Int × List Char :=
            match rest with
            | '-' :: r => (-1, r)
            | '+' :: r => (1, r)
            | _ => (1, rest)
          let eDigits := rest1.takeWhile Char.isDigit
          if eDigits.isEmpty then 0 else esign * digitsVal eDigits
        else 0
      | [] => 0
    let scaled : ℚ :=
      if 0 ≤ expVal then ratMul mantissa (mkRat (10 ^ expVal.toNat) 1)
      else ratMul mantissa (mkRat 1 (10 ^ (-expVal).toNat))
    some (ratMul sign scaled)

/-! ### `server/config.js` -/

/-- The canonical sensor types (`SensorType` in `types.ts`). -/
inductive SensorType where
  | pm25
  | pm10
  | pm_1um
  | pm_4um
  | co2
  | voc
  | humidity
  | temperature
  | pressure
  | nox
  | rssi
  deriving DecidableEq, Repr

/-- `ENTITY_MAPPINGS` from `config.js`, in object-literal insertion order
(the order `Object.entries` iterates). -/
def ENTITY_MAPPINGS : List (SensorType × List String) :=
  [(.pm25, ["pm_2_5", "pm25", "pm_2.5", "pm_2_5_concentration", "particulate_matter_2_5",
            "particulate_matter_25"]),
   (.pm10, ["pm_10", "pm10", "pm_10_concentration", "particulate_matter_10",
            "particulate_matter_100"]),
   (.pm_1um, ["pm_1_0", "pm1", "pm_1", "pm_1_0_concentration", "particulate_matter_1_0",
              "particulate_matter_10"]),
   (.pm_4um, ["pm_4_0", "pm4", "pm_4", "pm_4_0_concentration", "particulate_matter_4_0",
              "particulate_matter_40"]),
   (.co2, ["co2", "carbon_dioxide", "co2_concentration", "carbondioxide"]),
   (.voc, ["voc", "tvoc", "volatile_organic_compounds", "voc_index",
           "total_volatile_organic_compounds"]),
   (.humidity, ["humidity", "relative_humidity", "rh"]),
   (.temperature, ["temperature", "temp", "air_temperature"]),
   (.pressure, ["pressure", "atmospheric_pressure", "air_pressure", "barometric_pressure"]),
   (.nox, ["nox", "nitrogen_oxides", "nox_index", "nitrogen_oxide"]),
   (.rssi, ["rssi", "wifi_signal", "signal_strength", "wifi_rssi"])]

/-- `parseEntityId` from `config.js`: strip a leading `sensor.`, strip the
configured prefix (case-insensitively), split on `_`; the device is the
first token (`'unknown'` when falsy) and the sensor suffix the last token
(`'unknown'` when fewer than two tokens remain). -/
def parseEntityId (entityId : String) (pfx : String) : String × String :=
  let cleanId := stripStart "sensor." entityId
  let withoutPrefix := stripStartCI (pfx ++ "_") cleanId
  let parts := (splitOnChar '_' withoutPrefix.toList).map String.mk
  match parts with
  | [] => ("unknown", "unknown")
  | [p0] => (if p0 = "" then "unknown" else p0, "unknown")
  | p0 :: p1 :: rest => (p0, (p1 :: rest).getLastD p1)

/-- The attribute bag of an entity, modelled with its well-known optional
keys (`device_class`, `unit_of_measurement`, `friendly_name`). -/
structure Attributes where
  deviceClass : Option String
  unitOfMeasurement : Option String
  friendlyName : Option String
  deriving DecidableEq, Repr

/-- The `deviceClassMap` lookup table inside `extractSensorType`. -/
def deviceClassMap (dc : String) : Option SensorType :=
  if dc = "pm25" then some .pm25
  else if dc = "pm10" then some .pm10
  else if dc = "pm1" then some .pm_1um
  else if dc = "pm4" then some .pm_4um
  else if dc = "carbon_dioxide" then some .co2
  else if dc = "volatile_organic_compounds" then some .voc
  else if dc = "humidity" then some .humidity
  else if dc = "temperature" then some .temperature
  else if dc = "pressure" then some .pressure
  else if dc = "nitrogen_oxides" then some .nox
  else if dc = "signal_strength" then some .rssi
  else none

/-- The `unitMap` lookup table inside `extractSensorType`. -/
def unitMap (u : String) : Option SensorType :=
  if u = "µg/m³" then some .pm25
  else if u = "ppm" then some .co2
  else if u = "%" then some .humidity
  else if u = "°c" then some .temperature
  else if u = "°f" then some .temperature
  else if u = "hpa" then some .pressure
  else if u = "mbar" then some .pressure
  else if u = "dbm" then some .rssi
  else none

/-- Whether one of the type's alias tokens, lower-cased and with
underscores stripped, occurs inside the lower-cased sensor suffix
(the loop body of `extractSensorType`'s first strategy). -/
def aliasHit (normalizedSensor : List Char) (names : List String) : Bool :=
  names.any fun name => charsContain ((lowerChars name).filter (fun c => c ≠ '_')) normalizedSensor

/-- `extractSensorType` from `config.js`: identifier-suffix alias scan,
then `device_class` lookup, then `unit_of_measurement` lookup, each gated
by JavaScript truthiness of the attribute. -/
def extractSensorType (entityId : String) (attributes : Attributes) (pfx : String) :
    Option SensorType :=
  let sensor := (parseEntityId entityId pfx).2
  let normalizedSensor := lowerChars sensor
  match ENTITY_MAPPINGS.find? (fun p => aliasHit normalizedSensor p.2) with
  | some p => some p.1
  | none =>
    let byClass : Option SensorType :=
      match attributes.deviceClass with
      | some dc => if dc ≠ "" then deviceClassMap (String.mk (lowerChars dc)) else none
      | none => none
    match byClass with
    | some t => some t
    | none =>
      match attributes.unitOfMeasurement with
      | some u => if u ≠ "" then unitMap (String.mk (lowerChars u)) else none
      | none => none

/-- `getDeviceName` from `config.js`: title-case the underscore-separated
tokens of the device id. -/
def getDeviceName (device : String) : String :=
  if device = "" then "Unknown"
  else
    String.intercalate " "
      ((splitOnChar '_' device.toList).map fun w =>
        match w with
        | [] => ""
        | c :: rest => String.mk (c.toUpper :: rest))

/-! ### Home Assistant client (`ha-client.ts`) -/

/-- A Home Assistant entity as the client sees it.  `_offset` and
`_offset_entity` are the fields `fetchSensors` attaches in place; raw
entities from the `/states` endpoint carry `none` there. -/
structure HAEntity where
  entity_id : String
  state : String
  attributes : Attributes
  last_updated : String
  last_changed : String
  _offset : Option ℚ
  _offset_entity : Option String
  deriving DecidableEq, Repr

/-- The transformed record `transformEntity` produces. -/
structure SensorData where
  entity_id : String
  device : String
  device_name : String
  sensor : String
  sensor_type : Option SensorType
  value : Option ℚ
  unit : Option String
  state : String
  friendly_name : String
  deviceClass : Option String
  last_updated : String
  last_changed : String
  attributes : Attributes
  deriving DecidableEq, Repr

/-- `entity.attributes?.unit_of_measurement || null`. -/
def rawUnit (a : Attributes) : Option String :=
  match a.unitOfMeasurement with
  | some u => if u = "" then none else some u
  | none => none

/-- The state-parsing step of `transformEntity`: a truthy state that is
neither `'unknown'` nor `'unavailable'` is parsed with
`Number.parseFloat`; a non-`NaN` result becomes the value. -/
def parsedValue (e : HAEntity) : Option ℚ :=
  if e.state ≠ "" ∧ e.state ≠ "unknown" ∧ e.state ≠ "unavailable" then jsParseFloat e.state
  else none

/-- The value and unit after the Fahrenheit→Celsius step of
`transformEntity`: when the sensor type is `temperature`, the value
parsed and the unit `'°F'`, the value becomes
`Math.round((((value - 32) * 5) / 9) * 100) / 100` and the unit `'°C'`. -/
def convertedValueUnit (e : HAEntity) (pfx : String) : Option ℚ × Option String :=
  let sensorType := extractSensorType e.entity_id e.attributes pfx
  match parsedValue e with
  | some v =>
    if sensorType = some .temperature ∧ rawUnit e.attributes = some "°F" then
      (some (round2 (ratDivNat (ratMul (ratSub v (intQ 32)) (intQ 5)) 9)), some "°C")
    else (some v, rawUnit e.attributes)
  | none => (none, rawUnit e.attributes)

/-- The value after the calibration-offset step of `transformEntity`:
when a value and an `_offset` are both present, the value becomes
`Math.round((value + offset) * 100) / 100`. -/
def calibratedValue (e : HAEntity) (pfx : String) : Option ℚ :=
  match (convertedValueUnit e pfx).1, e._offset with
  | some v, some o => some (round2 (ratAdd v o))
  | v, _ => v

/-- `transformEntity` from the Home Assistant client. -/
def transformEntity (e : HAEntity) (pfx : String) : SensorData :=
  let ds := parseEntityId e.entity_id pfx
  { entity_id := e.entity_id
    device := ds.1
    device_name := getDeviceName ds.1
    sensor := ds.2
    sensor_type := extractSensorType e.entity_id e.attributes pfx
    value := calibratedValue e pfx
    unit := (convertedValueUnit e pfx).2
    state := e.state
    friendly_name :=
      match e.attributes.friendlyName with
      | some f => if f = "" then e.entity_id else f
      | none => e.entity_id
    deviceClass :=
      match e.attributes.deviceClass with
      | some d => if d = "" then none else some d
      | none => none
    last_updated := e.last_updated
    last_changed := e.last_changed
    attributes := e.attributes }

/-- The filter `^sensor\.<prefix>_` (case-insensitive) from
`fetchSensors`. -/
def sensorIdMatch (pfx : String) (eid : String) : Bool :=
  (lowerChars ("sensor." ++ pfx ++ "_")).isPrefixOf (lowerChars eid)

/-- The filter `^number\.<prefix>_.*_offset$` (case-insensitive) from
`fetchSensors`. -/
def offsetIdMatch (pfx : String) (eid : String) : Bool :=
  let low := lowerChars eid
  let pre := lowerChars ("number." ++ pfx ++ "_")
  pre.isPrefixOf low && (lowerChars "_offset").isSuffixOf (low.drop pre.length)

/-- The base identifier of an offset entity:
`entity_id.replace(/^number\./, '').replace(/_offset$/, '')`
(case-sensitive, as in the source). -/
def offsetBase (eid : String) : String := stripEnd "_offset" (stripStart "number." eid)

/-- The base identifier of a sensor entity:
`entity_id.replace(/^sensor\./, '')`. -/
def sensorBase (eid : String) : String := stripStart "sensor." eid

/-- The pure core of `fetchSensors`: filter the `/states` response down
to matching sensors, find the `number.*_offset` companions, and attach
to each sensor the parsed state of its matching offset entity whenever
`Number.parseFloat` does not yield `NaN`. -/
def attachOffsets (states : List HAEntity) (pfx : String) : List HAEntity :=
  let matchingSensors := states.filter fun e => sensorIdMatch pfx e.entity_id
  let offsets := states.filter fun e => offsetIdMatch pfx e.entity_id
  matchingSensors.map fun sensor =>
    match offsets.find? (fun o => offsetBase o.entity_id = sensorBase sensor.entity_id) with
    | some matchingOffset =>
      match jsParseFloat matchingOffset.state with
      | some v =>
        { sensor with _offset := some v, _offset_entity := some matchingOffset.entity_id }
      | none => sensor
    | none => sensor

/-! ### Reading store (`db.ts`)

The `readings` table is modelled as a list of rows in insertion order.
SQLite semantics that matter here: the `UNIQUE(timestamp, device_id)`
constraint treats `NULL` device ids as distinct from every value
(two rows with the same timestamp and `NULL` device id do not conflict);
`ON CONFLICT(timestamp, device_id) DO UPDATE` fires when the targeted
constraint would be violated, overwriting only `sensor_data` and `room`;
otherwise a duplicate `id` violates the primary key and the statement
fails, leaving the table unchanged.  `created_at` is server-assigned on
fresh insert (`DEFAULT CURRENT_TIMESTAMP`), modelled by an explicit
`now` argument.
-/

/-- A row of the `readings` table. -/
structure StoredReading where
  id : String
  device_id : Option String
  room : String
  timestamp : Int
  created_at : Nat
  sensor_data : String
  deriving DecidableEq, Repr

/-- The argument record of `insertReading`. -/
structure ReadingInsert where
  id : String
  device_id : Option String
  room : String
  timestamp : Int
  sensor_data : String
  deriving DecidableEq, Repr

/-- The error a failed store statement raises. -/
inductive DbError where
  | constraintViolation
  deriving DecidableEq, Repr

/-- Whether a stored row conflicts with an insert on the
`UNIQUE(timestamp, device_id)` constraint.  A `NULL` device id never
conflicts (SQLite treats `NULL`s in a unique index as distinct). -/
def pairConflict (row : StoredReading) (r : ReadingInsert) : Bool :=
  row.timestamp == r.timestamp &&
    match row.device_id, r.device_id with
    | some a, some b => a == b
    | _, _ => false

/-- `insertReading`:
`INSERT ... ON CONFLICT(timestamp, device_id) DO UPDATE SET
sensor_data = excluded.sensor_data, room = excluded.room`. -/
def insertReading (db : List StoredReading) (r : ReadingInsert) (now : Nat) :
    Except DbError (List StoredReading) :=
  if db.any (fun row => pairConflict row r) then
    .ok (db.map fun row =>
      if pairConflict row r then { row with sensor_data := r.sensor_data, room := r.room }
      else row)
  else if db.any (fun row => row.id == r.id) then .error .constraintViolation
  else .ok (db ++ [{ id := r.id, device_id := r.device_id, room := r.room,
                     timestamp := r.timestamp, created_at := now,
                     sensor_data := r.sensor_data }])

/-- The query object accepted by `getReadings`; absent fields are
`undefined` in the source. -/
structure ReadingQuery where
  limit : Option Int
  offset : Option Int
  device_id : Option String
  room : Option String
  since : Option Int
  deriving DecidableEq, Repr

/-- The `WHERE` clauses `getReadings` builds: each filter is added only
when the query field is truthy (`if (device_id)`, `if (room)`,
`if (since)` — so an empty string or a zero `since` adds no clause). -/
def matchesFilters (q : ReadingQuery) (row : StoredReading) : Bool :=
  (match q.device_id with
   | some d => if d ≠ "" then row.device_id == some d else true
   | none => true) &&
  (match q.room with
   | some rm => if rm ≠ "" then row.room == rm else true
   | none => true) &&
  (match q.since with
   | some s => if s ≠ 0 then decide (s ≤ row.timestamp) else true
   | none => true)

/-- `ORDER BY timestamp DESC`. -/
def tsDesc (a b : StoredReading) : Prop := b.timestamp ≤ a.timestamp

/-- `ORDER BY timestamp ASC`. -/
def tsAsc (a b : StoredReading) : Prop := a.timestamp ≤ b.timestamp

instance : DecidableRel tsDesc := fun a b => inferInstanceAs (Decidable (b.timestamp ≤ a.timestamp))

instance : DecidableRel tsAsc := fun a b => inferInstanceAs (Decidable (a.timestamp ≤ b.timestamp))

/-- `LIMIT ?`: a negative limit means no limit in SQLite. -/
def applyLimit (limit : Int) (l : List StoredReading) : List StoredReading :=
  if limit < 0 then l else l.take limit.toNat

/-- `getReadings`: filter, `ORDER BY timestamp DESC`, then
`LIMIT ? OFFSET ?`, with `limit = 50` and `offset = 0` when unset
(a negative offset is treated as 0 by SQLite, matching `Int.toNat`). -/
def getReadings (db : List StoredReading) (q : ReadingQuery) : List StoredReading :=
  let limit := q.limit.getD 50
  let offset := q.offset.getD 0
  applyLimit limit (((db.filter (matchesFilters q)).insertionSort tsDesc).drop offset.toNat)

/-- `getAllReadingsForExport`: `SELECT * FROM readings ORDER BY timestamp ASC`. -/
def getAllReadingsForExport (db : List StoredReading) : List StoredReading :=
  db.insertionSort tsAsc

/-- `deleteReading`: `DELETE FROM readings WHERE id = ?`. -/
def deleteReading (db : List StoredReading) (i : String) : List StoredReading :=
  db.filter fun row => row.id ≠ i

/-- An operation against the store, for stating state invariants. -/
inductive StoreOp where
  | ins (r : ReadingInsert) (now : Nat)
  | del (i : String)
  | clear
  deriving Repr

/-- Apply one operation; a failed insert leaves the table unchanged. -/
def applyOp (db : List StoredReading) : StoreOp → List StoredReading
  | .ins r now =>
    match insertReading db r now with
    | .ok db' => db'
    | .error _ => db
  | .del i => deleteReading db i
  | .clear => []

/-- Run a sequence of store operations from the empty table. -/
def runOps (ops : List StoreOp) : List StoredReading :=
  ops.foldl applyOp []

/-- The insert record carrying a row's own fields. -/
def toIns (r : StoredReading) : ReadingInsert :=
  { id := r.id, device_id := r.device_id, room := r.room, timestamp := r.timestamp,
    sensor_data := r.sensor_data }

/-- No two rows conflict on `(timestamp, device_id)` (`NULL` never
conflicts). -/
def pairDistinct (db : List StoredReading) : Prop :=
  db.Pairwise fun a b => pairConflict a (toIns b) = false

/-- All row ids are distinct (the `id` primary key). -/
def idsDistinct (db : List StoredReading) : Prop :=
  db.Pairwise fun a b => a.id ≠ b.id

/-! ### JSON values (`JSON.parse` / `JSON.stringify`)

The platform's JSON builtins are modelled on the fragment the reading
payloads use (spec §3: `sensor_data` is a JSON-encoded mapping): objects,
arrays, strings, integer numbers, booleans and `null`.  Fractional and
exponent number forms are outside the model and parse to `none`.
-/

/-- A JSON value (integer-valued numbers only). -/
inductive Json where
  | null : Json
  | bool (b : Bool) : Json
  | num (n : Int) : Json
  | str (s : String) : Json
  | arr (elems : List Json) : Json
  | obj (fields : List (String × Json)) : Json

/-- One character of `JSON.stringify`'s minimal string escaping. -/
def escapeJsonChar (c : Char) : List Char :=
  if c = '"' then ['\\', '"']
  else if c = '\\' then ['\\', '\\']
  else if c = '\n' then ['\\', 'n']
  else if c = '\t' then ['\\', 't']
  else if c = '\r' then ['\\', 'r']
  else if c.toNat = 8 then ['\\', 'b']
  else if c.toNat = 12 then ['\\', 'f']
  else if c.toNat < 32 then
    let hexDigit : Nat → Char := fun n => if n < 10 then Char.ofNat (48 + n) else Char.ofNat (87 + n)
    ['\\', 'u', '0', '0', hexDigit (c.toNat / 16), hexDigit (c.toNat % 16)]
  else [c]

/-- `JSON.stringify` on a string. -/
def stringifyStr (s : String) : String :=
  String.mk ('"' :: (s.toList.flatMap escapeJsonChar) ++ ['"'])

mutual

/-- `JSON.stringify` (no indentation): compact output, object keys in
insertion order, as the JavaScript builtin produces. -/
def stringifyJson : Json → String
  | .null => "null"
  | .bool true => "true"
  | .bool false => "false"
  | .num n => toString n
  | .str s => stringifyStr s
  | .arr l => "[" ++ String.intercalate "," (stringifyJsonList l) ++ "]"
  | .obj fs => "\x7b" ++ String.intercalate "," (stringifyJsonFields fs) ++ "\x7d"

def stringifyJsonList : List Json → List String
  | [] => []
  | j :: rest => stringifyJson j :: stringifyJsonList rest

def stringifyJsonFields : List (String × Json) → List String
  | [] => []
  | (k, v) :: rest => (stringifyStr k ++ ":" ++ stringifyJson v) :: stringifyJsonFields rest

end

/-- JSON whitespace. -/
def skipJsonWs : List Char → List Char
  | c :: cs => if c = ' ' ∨ c = '\n' ∨ c = '\t' ∨ c = '\r' then skipJsonWs cs else c :: cs
  | [] => []

/-- Value of a hexadecimal digit. -/
def hexVal (c : Char) : Option Nat :=
  if '0' ≤ c ∧ c ≤ '9' then some (c.toNat - 48)
  else if 'a' ≤ c ∧ c ≤ 'f' then some (c.toNat - 87)
  else if 'A' ≤ c ∧ c ≤ 'F' then some (c.toNat - 55)
  else none

/-- Parse the body of a JSON string after the opening quote, handling the
escape sequences `JSON.parse` accepts. -/
def parseJsonStr (fuel : Nat) (cs : List Char) : Option (List Char × List Char) :=
  match fuel, cs with
  | 0, _ => none
  | _, [] => none
  | f + 1, c :: cs =>
    if c = '"' then some ([], cs)
    else if c = '\\' then
      match cs with
      | [] => none
      | e :: cs2 =>
        let cont := fun (ch : Char) (rest : List Char) =>
          (parseJsonStr f rest).map fun p => (ch :: p.1, p.2)
        if e = '"' then cont '"' cs2
        else if e = '\\' then cont '\\' cs2
        else if e = '/' then cont '/' cs2
        else if e = 'n' then cont '\n' cs2
        else if e = 't' then cont '\t' cs2
        else if e = 'r' then cont '\r' cs2
        else if e = 'b' then cont (Char.ofNat 8) cs2
        else if e = 'f' then cont (Char.ofNat 12) cs2
        else if e = 'u' then
          match cs2 with
          | h1 :: h2 :: h3 :: h4 :: cs3 =>
            match hexVal h1, hexVal h2, hexVal h3, hexVal h4 with
            | some a, some b, some c3, some d =>
              cont (Char.ofNat (((a * 16 + b) * 16 + c3) * 16 + d)) cs3
            | _, _, _, _ => none
          | _ => none
        else none
    else if c.toNat < 32 then none
    else (parseJsonStr f cs).map fun p => (c :: p.1, p.2)

/-- Parse a JSON integer (`-? (0 | [1-9][0-9]*)`), rejecting the
fraction/exponent forms that are outside the model. -/
def parseJsonNum (cs : List Char) : Option (Int × List Char) :=
  let (neg, cs1) : Bool × List Char :=
    match cs with
    | '-' :: rest => (true, rest)
    | _ => (false, cs)
  let ds := cs1.takeWhile Char.isDigit
  let rest := cs1.dropWhile Char.isDigit
  if ds.isEmpty then none
  else if ds.length > 1 ∧ ds.headD '0' = '0' then none
  else
    match rest with
    | '.' :: _ => none
    | 'e' :: _ => none
    | 'E' :: _ => none
    | _ => some ((if neg then -(digitsVal ds : Int) else (digitsVal ds : Int)), rest)

/-- Assign one parsed object member as JavaScript property assignment
does: a duplicate key overwrites the value at the key's first position,
a new key is appended. -/
def upsertField (fields : List (String × Json)) (k : String) (v : Json) :
    List (String × Json) :=
  match fields with
  | [] => [(k, v)]
  | (k', v') :: rest => if k' = k then (k, v) :: rest else (k', v') :: upsertField rest k v

/-- Build a JSON object from its parsed members the way `JSON.parse`
does: last key wins, keys keep their first-occurrence order. -/
def dedupFields (members : List (String × Json)) : List (String × Json) :=
  members.foldl (fun acc p => upsertField acc p.1 p.2) []

mutual

/-- Recursive-descent JSON value parser (fuel-indexed so that it reduces
structurally). -/
def parseJsonCore (fuel : Nat) (cs : List Char) : Option (Json × List Char) :=
  match fuel with
  | 0 => none
  | f + 1 =>
    match skipJsonWs cs with
    | [] => none
    | c :: rest =>
      if c = 'n' then
        match rest with
        | 'u' :: 'l' :: 'l' :: rest2 => some (.null, rest2)
        | _ => none
      else if c = 't' then
        match rest with
        | 'r' :: 'u' :: 'e' :: rest2 => some (.bool true, rest2)
        | _ => none
      else if c = 'f' then
        match rest with
        | 'a' :: 'l' :: 's' :: 'e' :: rest2 => some (.bool false, rest2)
        | _ => none
      else if c = '"' then
        (parseJsonStr f rest).map fun p => (.str (String.mk p.1), p.2)
      else if c.toNat = 91 then
        match skipJsonWs rest with
        | c2 :: rest2 =>
          if c2.toNat = 93 then some (.arr [], rest2)
          else (parseJsonElems f (c2 :: rest2)).map fun p => (.arr p.1, p.2)
        | [] => none
      else if c.toNat = 123 then
        match skipJsonWs rest with
        | c2 :: rest2 =>
          if c2.toNat = 125 then some (.obj [], rest2)
          else (parseJsonMembers f (c2 :: rest2)).map fun p => (.obj (dedupFields p.1), p.2)
        | [] => none
      else (parseJsonNum (c :: rest)).map fun p => (.num p.1, p.2)

/-- Parse the non-empty element list of a JSON array, including the
closing bracket. -/
def parseJsonElems (fuel : Nat) (cs : List Char) : Option (List Json × List Char) :=
  match fuel with
  | 0 => none
  | f + 1 =>
    match parseJsonCore f cs with
    | none => none
    | some (j, rest) =>
      match skipJsonWs rest with
      | c :: rest2 =>
        if c = ',' then (parseJsonElems f rest2).map fun p => (j :: p.1, p.2)
        else if c.toNat = 93 then some ([j], rest2)
        else none
      | [] => none

/-- Parse the non-empty member list of a JSON object in textual order,
including the closing brace (duplicate keys are resolved by
`dedupFields` at the object construction site). -/
def parseJsonMembers (fuel : Nat) (cs : List Char) : Option (List (String × Json) × List Char) :=
  match fuel with
  | 0 => none
  | f + 1 =>
    match skipJsonWs cs with
    | '"' :: rest =>
      match parseJsonStr f rest with
      | none => none
      | some (key, rest1) =>
        match skipJsonWs rest1 with
        | ':' :: rest2 =>
          match parseJsonCore f rest2 with
          | none => none
          | some (v, rest3) =>
            match skipJsonWs rest3 with
            | c :: rest4 =>
              if c = ',' then
                (parseJsonMembers f rest4).map fun p => ((String.mk key, v) :: p.1, p.2)
              else if c.toNat = 125 then some ([(String.mk key, v)], rest4)
              else none
            | [] => none
        | _ => none
    | _ => none

end

/-- `JSON.parse` on the modelled fragment: a complete value with nothing
but whitespace after it; duplicate object keys are last-key-wins, as in
the JavaScript builtin. -/
def parseJson (s : String) : Option Json :=
  match parseJsonCore (3 * s.toList.length + 3) s.toList with
  | some (j, rest) => if skipJsonWs rest = [] then some j else none
  | none => none

/-! ### `/export` and `/import` routes (`routes/readings.ts`) -/

/-- JavaScript truthiness of a JSON value (`false`, `0`, `''` and `null`
are falsy; every object and array is truthy). -/
def jsTruthyJson : Json → Bool
  | .null => false
  | .bool b => b
  | .num n => n != 0
  | .str s => s != ""
  | .arr _ => true
  | .obj _ => true

/-- One exported reading as the `/export` route serialises it
(`data` is `JSON.parse(sensor_data)`). -/
structure ExportedReading where
  id : String
  device_id : Option String
  room : String
  timestamp : Int
  created_at : Nat
  data : Json

/-- Parse one row's `sensor_data` for export; `none` models the
`JSON.parse` exception that fails the whole `/export` request. -/
def exportRow (r : StoredReading) : Option ExportedReading :=
  (parseJson r.sensor_data).map fun j =>
    { id := r.id, device_id := r.device_id, room := r.room, timestamp := r.timestamp,
      created_at := r.created_at, data := j }

/-- The `/export` route: all rows ordered `timestamp ASC`, each with its
`sensor_data` parsed. -/
def exportReadings (db : List StoredReading) : Option (List ExportedReading) :=
  (getAllReadingsForExport db).mapM exportRow

/-- A candidate element of the `/import` request body; absent fields are
`undefined`. -/
structure ImportReading where
  id : Option String
  device_id : Option String
  room : Option String
  timestamp : Option Int
  data : Option Json

/-- Truthiness of a possibly-absent JSON field. -/
def truthyOptJson : Option Json → Bool
  | some j => jsTruthyJson j
  | none => false

/-- Truthiness of a possibly-absent string field. -/
def truthyOptStr : Option String → Bool
  | some s => s != ""
  | none => false

/-- Truthiness of a possibly-absent numeric field. -/
def truthyOptInt : Option Int → Bool
  | some n => n != 0
  | none => false

/-- `x || null` on an optional string field. -/
def orNull : Option String → Option String
  | some s => if s = "" then none else some s
  | none => none

/-- `typeof reading.data === 'string' ? reading.data : JSON.stringify(reading.data)`. -/
def dataToSensorData : Json → String
  | .str s => s
  | j => stringifyJson j

/-- The running state of the `/import` loop: the table, the two
counters, and the next index into the fresh-id generator. -/
structure ImportState where
  db : List StoredReading
  imported : Nat
  errors : Nat
  fresh : Nat
  deriving DecidableEq, Repr

/-- One iteration of the `/import` loop: validate that `data`, `room`
and `timestamp` are all truthy, then insert (with a generated id when
the candidate's `id` is falsy); a validation failure or insert error
increments `errors` and moves on. -/
def importStep (gen : Nat → String) (now : Nat) (st : ImportState) (c : ImportReading) :
    ImportState :=
  if truthyOptJson c.data && truthyOptStr c.room && truthyOptInt c.timestamp then
    let idFresh : String × Nat :=
      match c.id with
      | some i => if i ≠ "" then (i, st.fresh) else (gen st.fresh, st.fresh + 1)
      | none => (gen st.fresh, st.fresh + 1)
    let r : ReadingInsert :=
      { id := idFresh.1, device_id := orNull c.device_id, room := c.room.getD "",
        timestamp := c.timestamp.getD 0,
        sensor_data := dataToSensorData (c.data.getD .null) }
    match insertReading st.db r now with
    | .ok db' => { st with db := db', imported := st.imported + 1, fresh := idFresh.2 }
    | .error _ => { st with errors := st.errors + 1, fresh := idFresh.2 }
  else { st with errors := st.errors + 1 }

/-- The `/import` route's loop over the candidate readings. -/
def importBatch (db : List StoredReading) (gen : Nat → String) (now : Nat)
    (readings : List ImportReading) : ImportState :=
  readings.foldl (importStep gen now) { db := db, imported := 0, errors := 0, fresh := 0 }

/-- An exported reading fed back through the `/import` body. -/
def toImportReading (e : ExportedReading) : ImportReading :=
  { id := some e.id, device_id := e.device_id, room := some e.room,
    timestamp := some e.timestamp, data := some e.data }

/-! ### Derived predicates used in the round-trip statements -/

/-- Is a JSON value an object? -/
def isObj : Json → Bool
  | .obj _ => true
  | _ => false

/-- `sensor_data` is the canonical compact encoding of a JSON object —
what `JSON.stringify` itself produces for a payload mapping. -/
def canonicalObjData (s : String) : Bool :=
  match parseJson s with
  | some v => isObj v && stringifyJson v == s
  | none => false

/-- A row every field of which survives the export/import round trip:
truthy id, room and timestamp, a device id that is not the empty string,
and canonical object `sensor_data`. -/
def exportableRow (r : StoredReading) : Bool :=
  r.id != "" && r.room != "" && r.timestamp != 0 && r.device_id != some "" &&
    canonicalObjData r.sensor_data

/-- Two rows that can coexist in one import: distinct ids and no
`(timestamp, device_id)` conflict. -/
def okTogether (a b : StoredReading) : Prop :=
  a.id ≠ b.id ∧ pairConflict a (toIns b) = false

/-- Replace a row's server-assigned `created_at`. -/
def stampRow (now : Nat) (r : StoredReading) : StoredReading :=
  { r with created_at := now }

/-- The export image of a row whose `sensor_data` parses. -/
def exportOne (r : StoredReading) : ExportedReading :=
  { id := r.id, device_id := r.device_id, room := r.room, timestamp := r.timestamp,
    created_at := r.created_at, data := (parseJson r.sensor_data).getD .null }

/-! ### Spec-side definitions for refinement comparisons -/

/-- Modelled from the spec: the rounding policy stated in §4.3 —
"round-half-away-from-zero at 2 decimal places".  Compared against the
source's `round2`. -/
def round2away (x : ℚ) : ℚ :=
  if 0 ≤ x then (⌊x * 100 + 1 / 2⌋ : ℚ) / 100 else -((⌊-x * 100 + 1 / 2⌋ : ℚ) / 100)

/-- Modelled from the spec: the conjunctive reading of `query`'s filters
in §4.4 — every provided filter must hold.  Compared against the
source's truthiness-gated `matchesFilters`. -/
def specMatchesB (q : ReadingQuery) (row : StoredReading) : Bool :=
  (match q.device_id with
   | some d => row.device_id == some d
   | none => true) &&
  (match q.room with
   | some rm => row.room == rm
   | none => true) &&
  (match q.since with
   | some s => decide (s ≤ row.timestamp)
   | none => true)

/-! ## Theorems -/

/-! ### Bridge lemmas for the kernel-computable arithmetic -/

theorem ratAdd_eq (a b : ℚ) : ratAdd a b = a + b := by
  rw [ratAdd, Rat.mkRat_eq_div]
  have ha : (a.den : ℚ) ≠ 0 := Nat.cast_ne_zero.mpr a.den_nz
  have hb : (b.den : ℚ) ≠ 0 := Nat.cast_ne_zero.mpr b.den_nz
  rw [show a + b = a.num / a.den + b.num / b.den by rw [Rat.num_div_den, Rat.num_div_den]]
  push_cast
  field_simp

theorem ratNeg_eq (a : ℚ) : ratNeg a = -a := by
  rw [ratNeg, Rat.mkRat_eq_div]
  rw [show -a = -(a.num / a.den) by rw [Rat.num_div_den]]
  push_cast
  ring

theorem ratSub_eq (a b : ℚ) : ratSub a b = a - b := by
  rw [ratSub, ratAdd_eq, ratNeg_eq, sub_eq_add_neg]

theorem ratMul_eq (a b : ℚ) : ratMul a b = a * b := by
  rw [ratMul, Rat.mkRat_eq_div]
  have ha : (a.den : ℚ) ≠ 0 := Nat.cast_ne_zero.mpr a.den_nz
  have hb : (b.den : ℚ) ≠ 0 := Nat.cast_ne_zero.mpr b.den_nz
  rw [show a * b = a.num / a.den * (b.num / b.den) by rw [Rat.num_div_den, Rat.num_div_den]]
  push_cast
  field_simp

theorem ratDivNat_eq (a : ℚ) (n : Nat) : ratDivNat a n = a / n := by
  rcases Nat.eq_zero_or_pos n with h0 | hpos
  · subst h0
    simp [ratDivNat, Rat.mkRat_eq_div]
  · rw [ratDivNat, Rat.mkRat_eq_div]
    have ha : (a.den : ℚ) ≠ 0 := Nat.cast_ne_zero.mpr a.den_nz
    have hn : (n : ℚ) ≠ 0 := Nat.cast_ne_zero.mpr (by omega)
    rw [show a / n = a.num / a.den / n by rw [Rat.num_div_den]]
    push_cast
    field_simp

theorem intQ_eq (n : Int) : intQ n = (n : ℚ) := by
  rw [intQ, Rat.mkRat_eq_div]
  simp

theorem jsRound_eq (x : ℚ) : jsRound x = ⌊x + 1 / 2⌋ := by
  rw [jsRound, ratAdd_eq]
  norm_num [Rat.mkRat_eq_div]

theorem round2_eq (x : ℚ) : round2 x = (⌊x * 100 + 1 / 2⌋ : ℚ) / 100 := by
  rw [round2, jsRound_eq, Rat.mkRat_eq_div, ratMul_eq, intQ_eq]
  norm_num

/-! ### C1 -/

/-- C1: for every Fahrenheit temperature reading `f` (canonical type
`temperature`, unit `'°F'`) and every non-null calibration offset `o`,
the value normalizer returns `round2(round2((f-32)*5/9) + o)` — the
conversion is rounded to 2 decimals first, then the offset is added and
the sum rounded again — and the effective unit becomes `'°C'`. -/
theorem C1_fahrenheit_offset_normalization (e : HAEntity) (pfx : String) (f o : ℚ)
    (htype : extractSensorType e.entity_id e.attributes pfx = some .temperature)
    (hunit : rawUnit e.attributes = some "°F")
    (hval : parsedValue e = some f)
    (hoff : e._offset = some o) :
    (transformEntity e pfx).value = some (round2 (round2 ((f - 32) * 5 / 9) + o)) ∧
    (transformEntity e pfx).unit = some "°C" := by
  have hconv : convertedValueUnit e pfx = (some (round2 ((f - 32) * 5 / 9)), some "°C") := by
    simp only [convertedValueUnit, hval, htype, hunit, and_self, if_true]
    simp only [ratDivNat_eq, ratMul_eq, ratSub_eq, intQ_eq]
    norm_num
  have hcal : calibratedValue e pfx = some (round2 (round2 ((f - 32) * 5 / 9) + o)) := by
    simp only [calibratedValue, hconv, hoff, ratAdd_eq]
  exact ⟨by simp only [transformEntity, hcal], by simp only [transformEntity, hconv]⟩

/-- C1 witness: the entity `sensor.air1_bedroom_temperature` in state
`"75.5"` with unit `'°F'` and offset `2` normalizes to `26.17`. -/
theorem C1_fahrenheit_offset_normalization_witness :
    (transformEntity
        ⟨"sensor.air1_bedroom_temperature", "75.5", ⟨none, some "°F", none⟩, "", "",
          some (intQ 2), some "number.air1_bedroom_temperature_offset"⟩ "air1").value =
      some (round2 (round2 ((mkRat 755 10 - 32) * 5 / 9) + intQ 2)) ∧
    (transformEntity
        ⟨"sensor.air1_bedroom_temperature", "75.5", ⟨none, some "°F", none⟩, "", "",
          some (intQ 2), some "number.air1_bedroom_temperature_offset"⟩ "air1").value =
      some (mkRat 2617 100) :=
  ⟨(C1_fahrenheit_offset_normalization
      ⟨"sensor.air1_bedroom_temperature", "75.5", ⟨none, some "°F", none⟩, "", "",
        some (intQ 2), some "number.air1_bedroom_temperature_offset"⟩ "air1"
      (mkRat 755 10) (intQ 2) (by decide) (by decide) (by decide) rfl).1,
   by decide⟩

/-! ### C8 -/

/-- C8: for every raw state string that does not parse as a
floating-point number, or equals the sentinel `"unknown"` or
`"unavailable"` (or is empty, hence falsy), the value normalizer
produces `null` for the entity's value — no unit conversion and no
calibration offset are applied (the unit is passed through unchanged),
and no error is raised. -/
theorem C8_unparseable_state_is_null (e : HAEntity) (pfx : String)
    (h : e.state = "" ∨ e.state = "unknown" ∨ e.state = "unavailable" ∨
      jsParseFloat e.state = none) :
    (transformEntity e pfx).value = none ∧
    (transformEntity e pfx).unit = rawUnit e.attributes := by
  have hpv : parsedValue e = none := by
    by_cases hc : e.state ≠ "" ∧ e.state ≠ "unknown" ∧ e.state ≠ "unavailable"
    · rw [parsedValue, if_pos hc]
      rcases h with h | h | h | h
      · exact absurd h hc.1
      · exact absurd h hc.2.1
      · exact absurd h hc.2.2
      · exact h
    · rw [parsedValue, if_neg hc]
  have hconv : convertedValueUnit e pfx = (none, rawUnit e.attributes) := by
    simp only [convertedValueUnit, hpv]
  have hcal : calibratedValue e pfx = none := by
    simp only [calibratedValue, hconv]
  exact ⟨by simp only [transformEntity, hcal], by simp only [transformEntity, hconv]⟩

/-- C8 witness: the non-numeric state `"abc"` yields a `null` value and
an untouched unit. -/
theorem C8_unparseable_state_is_null_witness :
    (transformEntity ⟨"sensor.air1_bedroom_co2", "abc", ⟨none, some "ppm", none⟩, "", "",
        none, none⟩ "air1").value = none ∧
    (transformEntity ⟨"sensor.air1_bedroom_co2", "abc", ⟨none, some "ppm", none⟩, "", "",
        none, none⟩ "air1").unit =
      rawUnit ⟨none, some "ppm", none⟩ :=
  C8_unparseable_state_is_null
    ⟨"sensor.air1_bedroom_co2", "abc", ⟨none, some "ppm", none⟩, "", "", none, none⟩ "air1"
    (Or.inr (Or.inr (Or.inr (by decide))))

/-! ### C4 -/

/-- C4 counterexample: the normalizer's rounding is not
round-half-away-from-zero on negative inputs.  The entity in state
`"-0.025"` with offset `0` has pre-offset value `-1/40`; the program
rounds it to `-1/50 = -0.02` (half toward `+∞`), while the spec's
round-half-away-from-zero policy yields `-3/100 = -0.03`. -/
theorem C4_counterexample :
    (convertedValueUnit ⟨"sensor.air1_bedroom_humidity", "-0.025", ⟨none, some "%", none⟩,
        "", "", some (intQ 0), none⟩ "air1").1 = some (mkRat (-1) 40) ∧
    (transformEntity ⟨"sensor.air1_bedroom_humidity", "-0.025", ⟨none, some "%", none⟩,
        "", "", some (intQ 0), none⟩ "air1").value = some (mkRat (-1) 50) ∧
    round2away (mkRat (-1) 40) = mkRat (-3) 100 ∧
    (mkRat (-1) 50 : ℚ) ≠ mkRat (-3) 100 := by
  refine ⟨by decide, by decide, ?_, by decide⟩
  have h40 : (mkRat (-1) 40 : ℚ) = -1 / 40 := by
    rw [Rat.mkRat_eq_div]; norm_num
  have h100 : (mkRat (-3) 100 : ℚ) = -3 / 100 := by
    rw [Rat.mkRat_eq_div]; norm_num
  rw [h40, h100, round2away, if_neg (by norm_num)]
  rw [show (-(-1 / 40 : ℚ) * 100 + 1 / 2) = ((3 : ℤ) : ℚ) by norm_num]
  rw [Int.floor_intCast]
  norm_num

/-- C4 amended: the rounding the value normalizer applies after each
transformation step is `Math.round(x*100)/100`, i.e. round-half-toward-`+∞`
at 2 decimal places (`⌊x·100 + 1/2⌋/100`); it coincides with
round-half-away-from-zero for nonnegative inputs but not for negative
ones. -/
theorem C4_amended_rounding_is_half_up :
    (∀ x : ℚ, round2 x = (⌊x * 100 + 1 / 2⌋ : ℚ) / 100) ∧
    (∀ (e : HAEntity) (pfx : String) (v o : ℚ),
      (convertedValueUnit e pfx).1 = some v → e._offset = some o →
      (transformEntity e pfx).value = some (round2 (v + o))) ∧
    (∀ x : ℚ, 0 ≤ x → round2 x = round2away x) := by
  refine ⟨round2_eq, ?_, ?_⟩
  · intro e pfx v o hconv hoff
    simp only [transformEntity, calibratedValue, hconv, hoff, ratAdd_eq]
  · intro x hx
    rw [round2away, if_pos hx, round2_eq]

/-- C4 witness: the offset step rounds `1 + 2` with `round2`, and
`round2` agrees with the away-from-zero policy at `3 ≥ 0`. -/
theorem C4_amended_rounding_is_half_up_witness :
    (transformEntity ⟨"sensor.air1_bedroom_co2", "1", ⟨none, none, none⟩, "", "",
        some (intQ 2), none⟩ "air1").value = some (round2 (intQ 1 + intQ 2)) ∧
    round2 (3 : ℚ) = round2away 3 :=
  ⟨C4_amended_rounding_is_half_up.2.1
      ⟨"sensor.air1_bedroom_co2", "1", ⟨none, none, none⟩, "", "", some (intQ 2), none⟩
      "air1" (intQ 1) (intQ 2) (by decide) rfl,
   C4_amended_rounding_is_half_up.2.2 3 (by norm_num)⟩

/-! ### C3 -/

/-- C3 counterexample: an entity identifier ending in `pm_2_5` does not
match `pm25` — the parsing rule keeps only the last underscore token
(`"5"`), no alias is a substring of it, and with no `device_class` /
`unit_of_measurement` attributes the matcher returns `none`, not
`some pm25`. -/
theorem C3_counterexample :
    extractSensorType "sensor.air1_bedroom_pm_2_5" ⟨none, none, none⟩ "air1" = none ∧
    (parseEntityId "sensor.air1_bedroom_pm_2_5" "air1").2 = "5" := by
  exact ⟨by decide, by decide⟩

/-- C3 amended: the suffix heuristic operates on the last underscore
token only, so an identifier whose suffix token contains a stripped
alias (e.g. `pm25`) maps to `pm25`, suffix `co2` maps to `co2`, and an
identifier with an unrecognized suffix and an attribute bag containing
neither `device_class` nor `unit_of_measurement` maps to `none` without
error. -/
theorem C3_amended_suffix_matching :
    extractSensorType "sensor.air1_bedroom_pm25" ⟨none, none, none⟩ "air1" = some .pm25 ∧
    extractSensorType "sensor.air1_bedroom_co2" ⟨none, none, none⟩ "air1" = some .co2 ∧
    (∀ (eid pfx : String) (fn : Option String),
      (∀ p ∈ ENTITY_MAPPINGS, aliasHit (lowerChars (parseEntityId eid pfx).2) p.2 = false) →
      extractSensorType eid ⟨none, none, fn⟩ pfx = none) := by
  refine ⟨by decide, by decide, ?_⟩
  intro eid pfx fn h
  have hfind :
      ENTITY_MAPPINGS.find? (fun p => aliasHit (lowerChars (parseEntityId eid pfx).2) p.2) =
        none :=
    List.find?_eq_none.mpr fun p hp => by simp [h p hp]
  simp only [extractSensorType, hfind]

/-- C3 witness: an unrecognized suffix with an empty attribute bag is
excluded (`none`), not an error. -/
theorem C3_amended_suffix_matching_witness :
    extractSensorType "sensor.air1_bedroom_zzz" ⟨none, none, none⟩ "air1" = none :=
  C3_amended_suffix_matching.2.2 "sensor.air1_bedroom_zzz" "air1" none (by decide)

/-! ### C9 -/

/-- C9: the import validation is by JavaScript truthiness, not mere
presence: a candidate whose `timestamp` is the number `0`, or whose
`room` is the empty string, is counted as an error and not inserted,
even though both fields are present. -/
theorem C9_truthiness_validation (db : List StoredReading) (gen : Nat → String) (now : Nat)
    (i dv : Option String) (dat : Json) (rm : String) (tv : Int)
    (hdat : jsTruthyJson dat = true) (hrm : rm ≠ "") :
    importBatch db gen now [⟨i, dv, some "", some tv, some dat⟩] =
      { db := db, imported := 0, errors := 1, fresh := 0 } ∧
    importBatch db gen now [⟨i, dv, some rm, some 0, some dat⟩] =
      { db := db, imported := 0, errors := 1, fresh := 0 } := by
  constructor
  · simp [importBatch, importStep, truthyOptStr]
  · simp [importBatch, importStep, truthyOptStr, truthyOptJson, truthyOptInt, hdat, hrm]

/-- C9 witness: a candidate with `room = ""` and one with
`timestamp = 0` are both rejected without touching the store. -/
theorem C9_truthiness_validation_witness :
    importBatch [] (fun _ => "fresh") 7
        [⟨some "id1", none, some "", some 5, some (Json.obj [("a", Json.str "b")])⟩] =
      { db := [], imported := 0, errors := 1, fresh := 0 } ∧
    importBatch [] (fun _ => "fresh") 7
        [⟨some "id1", none, some "kitchen", some 0, some (Json.obj [("a", Json.str "b")])⟩] =
      { db := [], imported := 0, errors := 1, fresh := 0 } :=
  C9_truthiness_validation [] (fun _ => "fresh") 7 (some "id1") none
    (Json.obj [("a", Json.str "b")]) "kitchen" 5 (by decide) (by decide)

/-! ### C6 -/

/-- Each iteration of the import loop increments exactly one of the two
counters. -/
theorem importStep_counts (gen : Nat → String) (now : Nat) (st : ImportState)
    (c : ImportReading) :
    (importStep gen now st c).imported + (importStep gen now st c).errors =
      st.imported + st.errors + 1 := by
  rw [importStep]
  split
  · split
    all_goals simp only []
    all_goals split
    all_goals simp_arith
  · simp_arith

/-- The import loop counts every candidate exactly once. -/
theorem importBatch_foldl_counts (gen : Nat → String) (now : Nat) :
    ∀ (readings : List ImportReading) (st : ImportState),
      (readings.foldl (importStep gen now) st).imported +
          (readings.foldl (importStep gen now) st).errors =
        st.imported + st.errors + readings.length := by
  intro readings
  induction readings with
  | nil => intro st; simp
  | cons c rest ih =>
    intro st
    have h := importStep_counts gen now st c
    simp only [List.foldl_cons, List.length_cons]
    rw [ih (importStep gen now st c)]
    omega

/-- C6: `importBatch` given one valid reading and one invalid reading
(missing `room`) imports the first, counts one error for the second, and
reports `total = 2`; the store gains exactly the one new row.  In
general every candidate contributes to exactly one of the two counters
(`imported + errors = total`) — the import never aborts partway. -/
theorem C6_import_never_aborts :
    (∀ (db : List StoredReading) (gen : Nat → String) (now : Nat)
        (readings : List ImportReading),
      (importBatch db gen now readings).imported + (importBatch db gen now readings).errors =
        readings.length) ∧
    (∀ (db : List StoredReading) (gen : Nat → String) (now : Nat) (iv : String)
        (dv : Option String) (rm : String) (tv : Int) (dat : Json)
        (i2 dv2 : Option String) (t2 : Option Int) (dat2 : Option Json),
      iv ≠ "" → rm ≠ "" → tv ≠ 0 → jsTruthyJson dat = true →
      (∀ row ∈ db, pairConflict row ⟨iv, orNull dv, rm, tv, dataToSensorData dat⟩ = false) →
      (∀ row ∈ db, row.id ≠ iv) →
      importBatch db gen now
          [⟨some iv, dv, some rm, some tv, some dat⟩, ⟨i2, dv2, none, t2, dat2⟩] =
        { db := db ++ [⟨iv, orNull dv, rm, tv, now, dataToSensorData dat⟩],
          imported := 1, errors := 1, fresh := 0 } ∧
      ([(⟨some iv, dv, some rm, some tv, some dat⟩ : ImportReading),
        ⟨i2, dv2, none, t2, dat2⟩] : List ImportReading).length = 2) := by
  constructor
  · intro db gen now readings
    rw [importBatch, importBatch_foldl_counts]
    simp
  · intro db gen now iv dv rm tv dat i2 dv2 t2 dat2 hiv hrm htv hdat hpc hid
    refine ⟨?_, rfl⟩
    have ha : db.any (fun row =>
        pairConflict row ⟨iv, orNull dv, rm, tv, dataToSensorData dat⟩) = false := by
      rw [List.any_eq_false]
      intro x hx
      simp [hpc x hx]
    have hb : db.any (fun row => row.id == iv) = false := by
      rw [List.any_eq_false]
      intro x hx
      simp [hid x hx]
    have h1 : importStep gen now ⟨db, 0, 0, 0⟩ ⟨some iv, dv, some rm, some tv, some dat⟩ =
        ⟨db ++ [⟨iv, orNull dv, rm, tv, now, dataToSensorData dat⟩], 1, 0, 0⟩ := by
      rw [importStep, if_pos (by simp [truthyOptJson, truthyOptStr, truthyOptInt, hdat, hrm, htv])]
      simp only [if_pos hiv]
      rw [insertReading]
      simp only [Option.getD_some]
      rw [if_neg (by simp [ha]), if_neg (by simp [hb])]
    have h2 : importStep gen now
        (⟨db ++ [⟨iv, orNull dv, rm, tv, now, dataToSensorData dat⟩], 1, 0, 0⟩ : ImportState)
        ⟨i2, dv2, none, t2, dat2⟩ =
        ⟨db ++ [⟨iv, orNull dv, rm, tv, now, dataToSensorData dat⟩], 1, 1, 0⟩ := by
      rw [importStep, if_neg (by simp [truthyOptStr])]
    rw [importBatch]
    simp only [List.foldl_cons, List.foldl_nil]
    rw [h1, h2]

/-- C6 witness: one valid and one room-less candidate against the empty
store yield `imported = 1`, `errors = 1`, `total = 2` and exactly one new
row. -/
theorem C6_import_never_aborts_witness :
    importBatch [] (fun _ => "fresh") 7
        [⟨some "id1", some "dev", some "kitchen", some 5, some (Json.obj [("a", Json.str "b")])⟩,
         ⟨some "id2", none, none, some 6, some (Json.obj [("a", Json.str "c")])⟩] =
      { db := [⟨"id1", some "dev", "kitchen", 5, 7, "\x7b\"a\":\"b\"\x7d"⟩],
        imported := 1, errors := 1, fresh := 0 } ∧
    ([(⟨some "id1", some "dev", some "kitchen", some 5,
        some (Json.obj [("a", Json.str "b")])⟩ : ImportReading),
      ⟨some "id2", none, none, some 6, some (Json.obj [("a", Json.str "c")])⟩] :
      List ImportReading).length = 2 := by
  have h := (C6_import_never_aborts.2 [] (fun _ => "fresh") 7 "id1" (some "dev") "kitchen" 5
    (Json.obj [("a", Json.str "b")]) (some "id2") none (some 6)
    (some (Json.obj [("a", Json.str "c")]))
    (by decide) (by decide) (by decide) (by decide)
    (fun row hrow => absurd hrow (List.not_mem_nil row))
    (fun row hrow => absurd hrow (List.not_mem_nil row)))
  refine ⟨?_, h.2⟩
  rw [h.1]
  rfl

/-! ### C10 -/

/-- C10: a calibration offset is attached to a sensor entity only when
the companion offset entity's state parses (`Number.parseFloat` yields a
non-`NaN` value, i.e. `some v` in the model); otherwise the sensor comes
out of `fetchSensors` with no offset and its normalized value is exactly
the pre-calibration value — calibration can never produce `NaN`. -/
theorem C10_offset_only_when_numeric (states : List HAEntity) (pfx : String) (e : HAEntity)
    (hraw : ∀ s ∈ states, s._offset = none)
    (he : e ∈ attachOffsets states pfx) :
    (∃ v, e._offset = some v ∧
      ∃ o ∈ states, offsetIdMatch pfx o.entity_id = true ∧
        offsetBase o.entity_id = sensorBase e.entity_id ∧ jsParseFloat o.state = some v) ∨
    (e._offset = none ∧ (transformEntity e pfx).value = (convertedValueUnit e pfx).1) := by
  have hcal : ∀ (x : HAEntity), x._offset = none →
      (transformEntity x pfx).value = (convertedValueUnit x pfx).1 := by
    intro x hx
    simp only [transformEntity, calibratedValue, hx]
    rcases (convertedValueUnit x pfx).1 with _ | v <;> rfl
  simp only [attachOffsets, List.mem_map] at he
  obtain ⟨s, hs, rfl⟩ := he
  have hsStates : s ∈ states := (List.mem_filter.mp hs).1
  rcases hfind : (states.filter fun o => offsetIdMatch pfx o.entity_id).find?
      (fun o => offsetBase o.entity_id = sensorBase s.entity_id) with _ | o
  · rw [hfind]
    simp only []
    exact Or.inr ⟨hraw s hsStates, hcal s (hraw s hsStates)⟩
  · rw [hfind]
    simp only []
    rcases hparse : jsParseFloat o.state with _ | v
    · simp only []
      exact Or.inr ⟨hraw s hsStates, hcal s (hraw s hsStates)⟩
    · simp only []
      left
      refine ⟨v, rfl, o, ?_, ?_, ?_, hparse⟩
      · exact (List.mem_filter.mp (List.mem_of_find?_eq_some hfind)).1
      · exact (List.mem_filter.mp (List.mem_of_find?_eq_some hfind)).2
      · have hp := List.find?_some hfind
        simpa using hp

/-- C10 witness: an offset companion in the non-numeric state `"abc"`
leaves the sensor without an offset, and its value is the
pre-calibration value. -/
theorem C10_offset_only_when_numeric_witness :
    (∃ v, (⟨"sensor.air1_bedroom_co2", "400", ⟨none, none, none⟩, "", "", none, none⟩ :
        HAEntity)._offset = some v ∧
      ∃ o ∈ [(⟨"sensor.air1_bedroom_co2", "400", ⟨none, none, none⟩, "", "", none,
                none⟩ : HAEntity),
             ⟨"number.air1_bedroom_co2_offset", "abc", ⟨none, none, none⟩, "", "", none, none⟩],
        offsetIdMatch "air1" o.entity_id = true ∧
        offsetBase o.entity_id = sensorBase "sensor.air1_bedroom_co2" ∧
        jsParseFloat o.state = some v) ∨
    ((⟨"sensor.air1_bedroom_co2", "400", ⟨none, none, none⟩, "", "", none, none⟩ :
        HAEntity)._offset = none ∧
      (transformEntity ⟨"sensor.air1_bedroom_co2", "400", ⟨none, none, none⟩, "", "", none,
          none⟩ "air1").value =
        (convertedValueUnit ⟨"sensor.air1_bedroom_co2", "400", ⟨none, none, none⟩, "", "",
          none, none⟩ "air1").1) :=
  C10_offset_only_when_numeric
    [⟨"sensor.air1_bedroom_co2", "400", ⟨none, none, none⟩, "", "", none, none⟩,
     ⟨"number.air1_bedroom_co2_offset", "abc", ⟨none, none, none⟩, "", "", none, none⟩]
    "air1"
    ⟨"sensor.air1_bedroom_co2", "400", ⟨none, none, none⟩, "", "", none, none⟩
    (by decide)
    (by decide)

/-! ### C7 -/

/-- Sorting three rows with strictly increasing timestamps by
`timestamp DESC` reverses them. -/
theorem insertionSort_three (a b c : StoredReading) (hab : a.timestamp < b.timestamp)
    (hbc : b.timestamp < c.timestamp) :
    List.insertionSort tsDesc [a, b, c] = [c, b, a] := by
  have h1 : ¬ tsDesc b c := not_le.mpr hbc
  have h2 : ¬ tsDesc a c := not_le.mpr (lt_trans hab hbc)
  have h3 : ¬ tsDesc a b := not_le.mpr hab
  simp [List.insertionSort, List.orderedInsert, h1, h2, h3]

/-- C7: `query` returns readings ordered by `timestamp` descending; the
provided `device_id`/`room`/`since` filters apply conjunctively with
`limit`/`offset` applied after filtering and ordering; `limit`/`offset`
default to `50`/`0` when unset; and after inserting three readings with
timestamps `t1 < t2 < t3`, querying with `limit 1, offset 0` returns
exactly the reading with timestamp `t3`. -/
theorem C7_query_order_filters_pagination :
    (∀ (db : List StoredReading) (q : ReadingQuery),
      List.Sorted tsDesc (getReadings db q)) ∧
    (∀ (db : List StoredReading) (q : ReadingQuery) (lim off : Int),
      q.limit = some lim → 0 ≤ lim → q.offset = some off →
      q.device_id ≠ some "" → q.room ≠ some "" → q.since ≠ some 0 →
      getReadings db q =
        (((db.filter (specMatchesB q)).insertionSort tsDesc).drop off.toNat).take lim.toNat) ∧
    (∀ (db : List StoredReading) (dv rm : Option String) (sv : Option Int),
      getReadings db ⟨none, none, dv, rm, sv⟩ = getReadings db ⟨some 50, some 0, dv, rm, sv⟩) ∧
    (∀ (t1 t2 t3 : Int) (i1 i2 i3 : String) (dv1 dv2 dv3 : Option String)
        (rm1 rm2 rm3 sd1 sd2 sd3 : String) (n1 n2 n3 : Nat),
      t1 < t2 → t2 < t3 → i1 ≠ i2 → i1 ≠ i3 → i2 ≠ i3 →
      getReadings
          (runOps [.ins ⟨i1, dv1, rm1, t1, sd1⟩ n1, .ins ⟨i2, dv2, rm2, t2, sd2⟩ n2,
            .ins ⟨i3, dv3, rm3, t3, sd3⟩ n3])
          ⟨some 1, some 0, none, none, none⟩ =
        [⟨i3, dv3, rm3, t3, n3, sd3⟩]) := by
  haveI htot : IsTotal StoredReading tsDesc := ⟨fun a b => le_total b.timestamp a.timestamp⟩
  haveI htrans : IsTrans StoredReading tsDesc := ⟨fun _ _ _ h1 h2 => le_trans h2 h1⟩
  refine ⟨?_, ?_, ?_, ?_⟩
  · intro db q
    have hsorted := List.sorted_insertionSort tsDesc (db.filter (matchesFilters q))
    have hsub : (getReadings db q).Sublist
        ((db.filter (matchesFilters q)).insertionSort tsDesc) := by
      rw [getReadings, applyLimit]
      split
      · exact List.drop_sublist _ _
      · exact (List.take_sublist _ _).trans (List.drop_sublist _ _)
    exact List.Pairwise.sublist hsub hsorted
  · intro db q lim off hlim hlimnn hoff hdev hroom hsince
    have hfe : ∀ row, matchesFilters q row = specMatchesB q row := by
      intro row
      rw [matchesFilters, specMatchesB]
      have e1 : (match q.device_id with
          | some d => if d ≠ "" then row.device_id == some d else true
          | none => true) = (match q.device_id with
          | some d => row.device_id == some d
          | none => true) := by
        rcases hd : q.device_id with _ | d
        · rfl
        · have hne : d ≠ "" := fun h => hdev (by rw [hd, h])
          simp [hne]
      have e2 : (match q.room with
          | some rm => if rm ≠ "" then row.room == rm else true
          | none => true) = (match q.room with
          | some rm => row.room == rm
          | none => true) := by
        rcases hr : q.room with _ | rm
        · rfl
        · have hne : rm ≠ "" := fun h => hroom (by rw [hr, h])
          simp [hne]
      have e3 : (match q.since with
          | some s => if s ≠ 0 then decide (s ≤ row.timestamp) else true
          | none => true) = (match q.since with
          | some s => decide (s ≤ row.timestamp)
          | none => true) := by
        rcases hs : q.since with _ | s
        · rfl
        · have hne : s ≠ 0 := fun h => hsince (by rw [hs, h])
          simp [hne]
      rw [e1, e2, e3]
    rw [getReadings, hlim, hoff]
    simp only [Option.getD_some]
    rw [applyLimit, if_neg (not_lt.mpr hlimnn)]
    rw [List.filter_congr fun row _ => hfe row]
  · intro db dv rm sv
    rfl
  · intro t1 t2 t3 i1 i2 i3 dv1 dv2 dv3 rm1 rm2 rm3 sd1 sd2 sd3 n1 n2 n3 h12 h23 hi12 hi13 hi23
    have b12 : (t1 == t2) = false := beq_eq_false_iff_ne.mpr (ne_of_lt h12)
    have b13 : (t1 == t3) = false := beq_eq_false_iff_ne.mpr (ne_of_lt (lt_trans h12 h23))
    have b23 : (t2 == t3) = false := beq_eq_false_iff_ne.mpr (ne_of_lt h23)
    have hdb : runOps [.ins ⟨i1, dv1, rm1, t1, sd1⟩ n1, .ins ⟨i2, dv2, rm2, t2, sd2⟩ n2,
        .ins ⟨i3, dv3, rm3, t3, sd3⟩ n3] =
        [⟨i1, dv1, rm1, t1, n1, sd1⟩, ⟨i2, dv2, rm2, t2, n2, sd2⟩, ⟨i3, dv3, rm3, t3, n3, sd3⟩] := by
      simp only [runOps, List.foldl_cons, List.foldl_nil, applyOp]
      simp [insertReading, pairConflict, b12, b13, b23, hi12, hi13, hi23]
    rw [hdb, getReadings]
    simp only [Option.getD_some]
    have hfilter : List.filter
        (matchesFilters ⟨some 1, some 0, none, none, none⟩)
        [⟨i1, dv1, rm1, t1, n1, sd1⟩, ⟨i2, dv2, rm2, t2, n2, sd2⟩,
          ⟨i3, dv3, rm3, t3, n3, sd3⟩] =
        [⟨i1, dv1, rm1, t1, n1, sd1⟩, ⟨i2, dv2, rm2, t2, n2, sd2⟩,
          ⟨i3, dv3, rm3, t3, n3, sd3⟩] := by
      simp [matchesFilters]
    rw [hfilter, insertionSort_three _ _ _ (by exact h12) (by exact h23)]
    rfl

/-- C7 witness: three inserted readings with timestamps `1 < 2 < 3`;
`query {limit 1, offset 0}` returns the timestamp-3 reading; the
defaults and ordering conjuncts at the same store. -/
theorem C7_query_order_filters_pagination_witness :
    List.Sorted tsDesc (getReadings
      [⟨"i1", none, "r", 1, 0, "x"⟩, ⟨"i2", none, "r", 2, 0, "x"⟩]
      ⟨none, none, none, none, none⟩) ∧
    getReadings [⟨"i1", none, "r", 1, 0, "x"⟩] ⟨some 1, some 0, some "d", some "r", some 1⟩ =
      ((([⟨"i1", none, "r", 1, 0, "x"⟩].filter
          (specMatchesB ⟨some 1, some 0, some "d", some "r", some 1⟩)).insertionSort
            tsDesc).drop (0 : Int).toNat).take (1 : Int).toNat ∧
    getReadings [⟨"i1", none, "r", 1, 0, "x"⟩] ⟨none, none, none, none, none⟩ =
      getReadings [⟨"i1", none, "r", 1, 0, "x"⟩] ⟨some 50, some 0, none, none, none⟩ ∧
    getReadings
        (runOps [.ins ⟨"i1", none, "r1", 1, "s1"⟩ 4, .ins ⟨"i2", none, "r2", 2, "s2"⟩ 5,
          .ins ⟨"i3", none, "r3", 3, "s3"⟩ 6])
        ⟨some 1, some 0, none, none, none⟩ =
      [⟨"i3", none, "r3", 3, 6, "s3"⟩] :=
  ⟨C7_query_order_filters_pagination.1
      [⟨"i1", none, "r", 1, 0, "x"⟩, ⟨"i2", none, "r", 2, 0, "x"⟩]
      ⟨none, none, none, none, none⟩,
   C7_query_order_filters_pagination.2.1 [⟨"i1", none, "r", 1, 0, "x"⟩]
      ⟨some 1, some 0, some "d", some "r", some 1⟩ 1 0 rfl (by decide) rfl
      (by decide) (by decide) (by decide),
   C7_query_order_filters_pagination.2.2.1 [⟨"i1", none, "r", 1, 0, "x"⟩] none none none,
   C7_query_order_filters_pagination.2.2.2 1 2 3 "i1" "i2" "i3" none none none
      "r1" "r2" "r3" "s1" "s2" "s3" 4 5 6 (by decide) (by decide) (by decide) (by decide)
      (by decide)⟩

/-! ### C2 -/

/-- C2 counterexample: with a `NULL` `device_id`, SQLite's
`UNIQUE(timestamp, device_id)` never fires — two inserts with the same
timestamp and null device id leave two rows sharing the `(timestamp,
device_id)` pair, and the second `sensor_data` payload does not
overwrite the first; moreover re-inserting an existing `id` with the
same `(timestamp, NULL)` pair raises the primary-key violation even
though the pair is not "different". -/
theorem C2_counterexample :
    runOps [.ins ⟨"a1", none, "r1", 100, "d1"⟩ 1, .ins ⟨"a2", none, "r1", 100, "d2"⟩ 2] =
      [⟨"a1", none, "r1", 100, 1, "d1"⟩, ⟨"a2", none, "r1", 100, 2, "d2"⟩] ∧
    (⟨"a1", none, "r1", 100, 1, "d1"⟩ : StoredReading).timestamp =
      (⟨"a2", none, "r1", 100, 2, "d2"⟩ : StoredReading).timestamp ∧
    (⟨"a1", none, "r1", 100, 1, "d1"⟩ : StoredReading).device_id =
      (⟨"a2", none, "r1", 100, 2, "d2"⟩ : StoredReading).device_id ∧
    insertReading [⟨"a1", none, "r1", 100, 1, "d1"⟩] ⟨"a1", none, "r2", 100, "d2"⟩ 2 =
      .error .constraintViolation := by
  refine ⟨by decide, rfl, rfl, by rfl⟩

/-- The upsert's `DO UPDATE` clause touches neither the key fields nor
the identity fields of a row. -/
theorem updatedRow_fields (r : ReadingInsert) (x : StoredReading) :
    (if pairConflict x r then { x with sensor_data := r.sensor_data, room := r.room }
      else x).timestamp = x.timestamp ∧
    (if pairConflict x r then { x with sensor_data := r.sensor_data, room := r.room }
      else x).device_id = x.device_id ∧
    (if pairConflict x r then { x with sensor_data := r.sensor_data, room := r.room }
      else x).id = x.id ∧
    (if pairConflict x r then { x with sensor_data := r.sensor_data, room := r.room }
      else x).created_at = x.created_at := by
  by_cases h : pairConflict x r = true <;> simp [h]

/-- `pairConflict` reads only the timestamps and device ids. -/
theorem pairConflict_congr (x y : StoredReading) (r : ReadingInsert)
    (ht : x.timestamp = y.timestamp) (hd : x.device_id = y.device_id) :
    pairConflict x r = pairConflict y r := by
  rw [pairConflict, pairConflict, ht, hd]

/-- `pairConflict` against a row's own insert record reads only the
row's timestamp and device id. -/
theorem pairConflict_toIns_congr (a x y : StoredReading)
    (ht : x.timestamp = y.timestamp) (hd : x.device_id = y.device_id) :
    pairConflict a (toIns x) = pairConflict a (toIns y) := by
  rw [pairConflict, pairConflict, toIns, toIns]
  simp only [ht, hd]

/-- Two rows conflicting with the same insert conflict with each other. -/
theorem pairConflict_shared {x y : StoredReading} {r : ReadingInsert}
    (hx : pairConflict x r = true) (hy : pairConflict y r = true) :
    pairConflict x (toIns y) = true := by
  simp only [pairConflict, toIns, Bool.and_eq_true, beq_iff_eq] at hx hy ⊢
  obtain ⟨hxt, hxm⟩ := hx
  obtain ⟨hyt, hym⟩ := hy
  refine ⟨by rw [hxt, hyt], ?_⟩
  rcases hxd : x.device_id with _ | a <;> rcases hrd : r.device_id with _ | b <;>
    rcases hyd : y.device_id with _ | c <;> simp_all

/-- Every store operation preserves pair-distinctness (for non-null
device ids) and id-distinctness. -/
theorem applyOp_preserves (db : List StoredReading) (op : StoreOp)
    (hp : pairDistinct db) (hi : idsDistinct db) :
    pairDistinct (applyOp db op) ∧ idsDistinct (applyOp db op) := by
  cases op with
  | clear => exact ⟨List.Pairwise.nil, List.Pairwise.nil⟩
  | del i =>
    exact ⟨List.Pairwise.sublist (List.filter_sublist _) hp,
      List.Pairwise.sublist (List.filter_sublist _) hi⟩
  | ins r now =>
    rw [applyOp, insertReading]
    by_cases hA : db.any (fun row => pairConflict row r) = true
    · rw [if_pos hA]
      simp only []
      constructor
      · rw [pairDistinct, List.pairwise_map]
        refine List.Pairwise.imp_of_mem ?_ hp
        intro a b _ _ hab
        rw [pairConflict_congr _ _ (toIns _) (updatedRow_fields r a).1
            (updatedRow_fields r a).2.1,
          pairConflict_toIns_congr _ _ _ (updatedRow_fields r b).1
            (updatedRow_fields r b).2.1]
        exact hab
      · rw [idsDistinct, List.pairwise_map]
        refine List.Pairwise.imp_of_mem ?_ hi
        intro a b _ _ hab
        rw [(updatedRow_fields r a).2.2.1, (updatedRow_fields r b).2.2.1]
        exact hab
    · rw [if_neg hA]
      by_cases hB : db.any (fun row => row.id == r.id) = true
      · rw [if_pos hB]
        exact ⟨hp, hi⟩
      · rw [if_neg hB]
        simp only []
        have hA' : ∀ x ∈ db, pairConflict x r = false := by
          intro x hx
          have := List.any_eq_false.mp (Bool.eq_false_iff.mpr (fun h => hA h)) x hx
          simpa using this
        have hB' : ∀ x ∈ db, x.id ≠ r.id := by
          intro x hx
          have := List.any_eq_false.mp (Bool.eq_false_iff.mpr (fun h => hB h)) x hx
          simpa using this
        constructor
        · rw [pairDistinct, List.pairwise_append]
          refine ⟨hp, List.pairwise_singleton _ _, ?_⟩
          intro a ha b hb
          rw [List.mem_singleton] at hb
          subst hb
          exact hA' a ha
        · rw [idsDistinct, List.pairwise_append]
          refine ⟨hi, List.pairwise_singleton _ _, ?_⟩
          intro a ha b hb
          rw [List.mem_singleton] at hb
          subst hb
          exact hB' a ha

/-- Any operation sequence from the empty store maintains the two
uniqueness invariants. -/
theorem runOps_invariants (ops : List StoreOp) :
    pairDistinct (runOps ops) ∧ idsDistinct (runOps ops) := by
  rw [runOps]
  suffices h : ∀ db, pairDistinct db → idsDistinct db →
      pairDistinct (ops.foldl applyOp db) ∧ idsDistinct (ops.foldl applyOp db) from
    h [] List.Pairwise.nil List.Pairwise.nil
  induction ops with
  | nil => exact fun db hp hi => ⟨hp, hi⟩
  | cons op rest ih =>
    intro db hp hi
    simp only [List.foldl_cons]
    obtain ⟨hp', hi'⟩ := applyOp_preserves db op hp hi
    exact ih _ hp' hi'

/-- In a pair-distinct store, at most one row conflicts with a given
insert. -/
theorem filter_pairConflict_singleton {db : List StoredReading} {r : ReadingInsert}
    {row : StoredReading} (hp : pairDistinct db) (hmem : row ∈ db)
    (hrow : pairConflict row r = true) :
    db.filter (fun x => pairConflict x r) = [row] := by
  induction db with
  | nil => cases hmem
  | cons a l ih =>
    rw [pairDistinct, List.pairwise_cons] at hp
    obtain ⟨ha, hl⟩ := hp
    rcases List.mem_cons.mp hmem with rfl | hmem'
    · rw [List.filter_cons, if_pos (by simpa using hrow)]
      have : l.filter (fun x => pairConflict x r) = [] := by
        rw [List.filter_eq_nil_iff]
        intro x hx hcx
        have := pairConflict_shared hrow (by simpa using hcx)
        rw [ha x hx] at this
        cases this
      rw [this]
    · have hA : pairConflict a r = false := by
        by_contra hne
        have ha' : pairConflict a r = true := by
          cases hpa : pairConflict a r
          · exact absurd hpa hne
          · rfl
        have := pairConflict_shared ha' hrow
        rw [ha row hmem'] at this
        cases this
      rw [List.filter_cons, if_neg (by simp [hA])]
      exact ih hl hmem'

/-- The upsert map commutes with filtering on the conflict predicate. -/
theorem filter_map_updated (db : List StoredReading) (r : ReadingInsert) :
    (db.map fun x =>
        if pairConflict x r then { x with sensor_data := r.sensor_data, room := r.room }
        else x).filter (fun x => pairConflict x r) =
      (db.filter (fun x => pairConflict x r)).map fun x =>
        if pairConflict x r then { x with sensor_data := r.sensor_data, room := r.room }
        else x := by
  induction db with
  | nil => rfl
  | cons a l ih =>
    simp only [List.map_cons, List.filter_cons]
    have hcong : pairConflict
        (if pairConflict a r then { a with sensor_data := r.sensor_data, room := r.room }
          else a) r = pairConflict a r :=
      pairConflict_congr _ _ r (updatedRow_fields r a).1 (updatedRow_fields r a).2.1
    by_cases hA : pairConflict a r = true
    · have hup : pairConflict { a with sensor_data := r.sensor_data, room := r.room } r =
          pairConflict a r :=
        pairConflict_congr _ _ r rfl rfl
      simp [hcong, hup, hA, ih]
    · have hA' : pairConflict a r = false := by
        cases hpa : pairConflict a r
        · rfl
        · exact absurd hpa hA
      simp [hcong, hA', ih]

/-- C2 amended: treating a `NULL` `device_id` as conflicting with
nothing (SQLite's `UNIQUE` semantics), after any sequence of store
operations no two rows share a `(timestamp, device_id)` pair with a
non-null device id, and all ids are distinct; an insert that conflicts
with an existing row on `(timestamp, device_id)` succeeds, leaving
exactly one conflicting row that carries the new `sensor_data` and
`room` with the original `id` and `created_at`; and an insert fails with
a `ConstraintViolation` exactly when no row conflicts on the pair and
some row (necessarily holding a different pair) already has the same
`id`. -/
theorem C2_amended_upsert_semantics :
    (∀ ops : List StoreOp, pairDistinct (runOps ops) ∧ idsDistinct (runOps ops)) ∧
    (∀ (db : List StoredReading) (r : ReadingInsert) (now : Nat) (row : StoredReading),
      pairDistinct db → row ∈ db → pairConflict row r = true →
      insertReading db r now =
        .ok (db.map fun x =>
          if pairConflict x r then { x with sensor_data := r.sensor_data, room := r.room }
          else x) ∧
      (db.map fun x =>
          if pairConflict x r then { x with sensor_data := r.sensor_data, room := r.room }
          else x).filter (fun x => pairConflict x r) =
        [{ row with sensor_data := r.sensor_data, room := r.room }]) ∧
    (∀ (db : List StoredReading) (r : ReadingInsert) (now : Nat),
      insertReading db r now = .error .constraintViolation ↔
        (∀ row ∈ db, pairConflict row r = false) ∧ ∃ row ∈ db, row.id = r.id) := by
  refine ⟨runOps_invariants, ?_, ?_⟩
  · intro db r now row hp hmem hrow
    have hA : db.any (fun x => pairConflict x r) = true :=
      List.any_eq_true.mpr ⟨row, hmem, hrow⟩
    constructor
    · rw [insertReading, if_pos hA]
    · rw [filter_map_updated, filter_pairConflict_singleton hp hmem hrow]
      simp only [List.map_cons, List.map_nil, if_pos (by simpa using hrow)]
  · intro db r now
    rw [insertReading]
    by_cases hA : db.any (fun x => pairConflict x r) = true
    · rw [if_pos hA]
      obtain ⟨x, hx, hpx⟩ := List.any_eq_true.mp hA
      refine iff_of_false (by simp) ?_
      rintro ⟨hall, -⟩
      rw [hall x hx] at hpx
      cases hpx
    · rw [if_neg hA]
      have hall : ∀ x ∈ db, pairConflict x r = false := by
        intro x hx
        have := List.any_eq_false.mp (Bool.eq_false_iff.mpr (fun h => hA h)) x hx
        simpa using this
      by_cases hB : db.any (fun x => x.id == r.id) = true
      · rw [if_pos hB]
        obtain ⟨x, hx, hix⟩ := List.any_eq_true.mp hB
        exact iff_of_true rfl ⟨hall, x, hx, by simpa using hix⟩
      · rw [if_neg hB]
        refine iff_of_false (by simp) ?_
        rintro ⟨-, x, hx, hix⟩
        exact hB (List.any_eq_true.mpr ⟨x, hx, by simpa using hix⟩)

/-- C2 amended witness: the invariants after two concrete inserts; a
concrete upsert that overwrites `sensor_data`/`room` and preserves
`id`/`created_at`; a concrete primary-key failure. -/
theorem C2_amended_upsert_semantics_witness :
    (pairDistinct (runOps [.ins ⟨"a1", some "d1", "r1", 100, "x"⟩ 1,
        .ins ⟨"a2", some "d2", "r2", 200, "y"⟩ 2]) ∧
      idsDistinct (runOps [.ins ⟨"a1", some "d1", "r1", 100, "x"⟩ 1,
        .ins ⟨"a2", some "d2", "r2", 200, "y"⟩ 2])) ∧
    insertReading [⟨"a1", some "d1", "r1", 100, 1, "x"⟩] ⟨"a2", some "d1", "r2", 100, "y"⟩ 5 =
      .ok ([⟨"a1", some "d1", "r1", 100, 1, "x"⟩].map fun x =>
        if pairConflict x ⟨"a2", some "d1", "r2", 100, "y"⟩ then
          { x with sensor_data := "y", room := "r2" }
        else x) ∧
    insertReading [⟨"a1", some "d1", "r1", 100, 1, "x"⟩] ⟨"a1", some "dZ", "rr", 200, "z"⟩ 5 =
      .error .constraintViolation :=
  ⟨C2_amended_upsert_semantics.1 _,
   (C2_amended_upsert_semantics.2.1 [⟨"a1", some "d1", "r1", 100, 1, "x"⟩]
      ⟨"a2", some "d1", "r2", 100, "y"⟩ 5 ⟨"a1", some "d1", "r1", 100, 1, "x"⟩
      (by rw [pairDistinct]; exact List.pairwise_singleton _ _) (by decide) (by decide)).1,
   (C2_amended_upsert_semantics.2.2 [⟨"a1", some "d1", "r1", 100, 1, "x"⟩]
      ⟨"a1", some "dZ", "rr", 200, "z"⟩ 5).mpr
     ⟨by decide, ⟨"a1", some "d1", "r1", 100, 1, "x"⟩, by decide, rfl⟩⟩

/-! ### C5 -/

/-- Unpack the per-row round-trip conditions. -/
theorem exportableRow_parse {r : StoredReading} (h : exportableRow r = true) :
    ∃ v, parseJson r.sensor_data = some v ∧ isObj v = true ∧
      stringifyJson v = r.sensor_data ∧ r.id ≠ "" ∧ r.room ≠ "" ∧ r.timestamp ≠ 0 ∧
      r.device_id ≠ some "" := by
  simp only [exportableRow, Bool.and_eq_true, bne_iff_ne] at h
  obtain ⟨⟨⟨⟨hid, hroom⟩, hts⟩, hdev⟩, hcan⟩ := h
  rw [canonicalObjData] at hcan
  rcases hp : parseJson r.sensor_data with _ | v
  · rw [hp] at hcan
    cases hcan
  · rw [hp] at hcan
    simp only [Bool.and_eq_true, beq_iff_eq] at hcan
    exact ⟨v, rfl, hcan.1, hcan.2, hid, hroom, hts, hdev⟩

/-- JSON objects are truthy. -/
theorem jsTruthy_of_isObj {v : Json} (h : isObj v = true) : jsTruthyJson v = true := by
  cases v <;> simp_all [isObj, jsTruthyJson]

/-- For a JSON object, the import stores its compact serialization. -/
theorem dataToSensorData_of_obj {v : Json} {s : String} (h : isObj v = true)
    (hs : stringifyJson v = s) : dataToSensorData v = s := by
  cases v <;> simp_all [isObj, dataToSensorData]

/-- `x || null` is the identity on fields that are `null` or a non-empty
string. -/
theorem orNull_eq {x : Option String} (h : x ≠ some "") : orNull x = x := by
  rcases x with _ | s
  · rfl
  · have : s ≠ "" := fun he => h (by rw [he])
    simp [orNull, this]

/-- Exporting rows whose payloads all parse succeeds and yields their
export images in order. -/
theorem mapM_exportRow (l : List StoredReading)
    (h : ∀ r ∈ l, (parseJson r.sensor_data).isSome = true) :
    l.mapM exportRow = some (l.map exportOne) := by
  induction l with
  | nil => rfl
  | cons a t ih =>
    have ha := h a (List.mem_cons_self a t)
    rcases hp : parseJson a.sensor_data with _ | v
    · rw [hp] at ha
      cases ha
    · rw [List.mapM_cons, ih (fun r hr => h r (List.mem_cons_of_mem a hr))]
      simp [exportRow, exportOne, hp]

/-- `stampRow` does not touch the key fields. -/
theorem pairConflict_stampRow (now : Nat) (a r : StoredReading) :
    pairConflict (stampRow now r) (toIns a) = pairConflict r (toIns a) :=
  pairConflict_congr (stampRow now r) r (toIns a) rfl rfl

/-- The pair-conflict relation between two rows is symmetric. -/
theorem pairConflict_comm (a b : StoredReading) :
    pairConflict a (toIns b) = pairConflict b (toIns a) := by
  rw [pairConflict, pairConflict, toIns, toIns]
  rcases hda : a.device_id with _ | x <;> rcases hdb : b.device_id with _ | y
  · simp
  · simp
  · simp
  · rw [Bool.eq_iff_iff]
    simp only [Bool.and_eq_true, beq_iff_eq]
    constructor
    · rintro ⟨h1, h2⟩
      exact ⟨h1.symm, h2.symm⟩
    · rintro ⟨h1, h2⟩
      exact ⟨h1.symm, h2.symm⟩

/-- `okTogether` is symmetric: both conjuncts only compare the two rows'
ids and key pairs. -/
theorem okTogether_symm {a b : StoredReading} (h : okTogether a b) : okTogether b a := by
  obtain ⟨h1, h2⟩ := h
  exact ⟨h1.symm, by rw [pairConflict_comm]; exact h2⟩

/-- Importing the export images of round-trippable, mutually compatible
rows appends exactly those rows (freshly stamped) and counts no error. -/
theorem import_exported_fold (gen : Nat → String) (now : Nat) :
    ∀ (rows : List StoredReading) (st : ImportState),
      (∀ r ∈ rows, exportableRow r = true) →
      (∀ r ∈ rows, ∀ s ∈ st.db, s.id ≠ r.id ∧ pairConflict s (toIns r) = false) →
      rows.Pairwise okTogether →
      List.foldl (importStep gen now) st ((rows.map exportOne).map toImportReading) =
        { db := st.db ++ rows.map (stampRow now), imported := st.imported + rows.length,
          errors := st.errors, fresh := st.fresh } := by
  intro rows
  induction rows with
  | nil =>
    intro st _ _ _
    simp
  | cons r rest ih =>
    intro st hex hsep hpw
    obtain ⟨v, hp, hobj, hstr, hid, hroom, hts, hdev⟩ :=
      exportableRow_parse (hex r (List.mem_cons_self r rest))
    rw [List.pairwise_cons] at hpw
    obtain ⟨hhead, hpw'⟩ := hpw
    have hins : insertReading st.db
        { id := r.id, device_id := r.device_id, room := r.room, timestamp := r.timestamp,
          sensor_data := r.sensor_data } now = .ok (st.db ++ [stampRow now r]) := by
      rw [insertReading]
      rw [if_neg (by
        simp only [Bool.not_eq_true, List.any_eq_false]
        intro s hs
        have h2 := (hsep r (List.mem_cons_self r rest) s hs).2
        simp only [toIns] at h2
        simp [h2])]
      rw [if_neg (by
        simp only [Bool.not_eq_true, List.any_eq_false]
        intro s hs
        simp [(hsep r (List.mem_cons_self r rest) s hs).1])]
      rfl
    have hstep : importStep gen now st (toImportReading (exportOne r)) =
        { st with db := st.db ++ [stampRow now r], imported := st.imported + 1 } := by
      rw [importStep]
      rw [if_pos (by
        simp only [toImportReading, exportOne, hp, Option.getD_some, truthyOptJson,
          truthyOptStr, truthyOptInt]
        simp [jsTruthy_of_isObj hobj, hroom, hts])]
      simp only [toImportReading, exportOne, hp, Option.getD_some]
      rw [if_pos hid]
      simp only []
      rw [orNull_eq hdev, dataToSensorData_of_obj hobj hstr, hins]
    rw [List.map_cons, List.map_cons, List.foldl_cons, hstep]
    have hsep' : ∀ x ∈ rest, ∀ s ∈ st.db ++ [stampRow now r],
        s.id ≠ x.id ∧ pairConflict s (toIns x) = false := by
      intro x hx s hs
      rcases List.mem_append.mp hs with hs' | hs'
      · exact hsep x (List.mem_cons_of_mem r hx) s hs'
      · rw [List.mem_singleton] at hs'
        subst hs'
        obtain ⟨h1, h2⟩ := hhead x hx
        exact ⟨h1, by rw [pairConflict_stampRow now x r]; exact h2⟩
    rw [ih (⟨st.db ++ [stampRow now r], st.imported + 1, st.errors, st.fresh⟩ : ImportState)
      (fun x hx => hex x (List.mem_cons_of_mem r hx)) hsep' hpw']
    simp only [List.map_cons, List.append_assoc, List.singleton_append, List.length_cons,
      ImportState.mk.injEq, and_true, true_and]
    omega

